import Mathlib

/-!
Shallow embedding of `src/httpd.py`, a minimal HTTP/1.0 static file server.

The embedding covers the per-connection request pipeline of class
`RequestHandler`: `_read_request` (chunked recv + utf-8 decode + CRLF CRLF
framing), `_parse_request` (request-line tokenisation, method check, target
resolution through `urlparse`/`unquote`/`os.path.realpath`, file existence and
size checks, header mutation), `_send_response` (status line, header block,
optional body) and `_get_response_body`.

External effects (filesystem queries, `os.path.realpath`, `mimetypes.guess_type`)
are parameters of an `Env` record; the byte-level codecs (`str.encode('utf8')`,
`bytes.decode('utf8')`, percent-decoding inside `urllib.parse.unquote`) are
embedded as executable Lean functions. An uncaught Python exception escaping the
handler is modelled as `none` / `Option.none` at the corresponding level.
-/

namespace Httpd

/-! ### Byte-level codecs: UTF-8 encode / strict decode / decode with replacement -/

/-- UTF-8 encoding of one unicode code point, as Python `str.encode("utf8")`
produces for that character. -/
def charUTF8 (c : Char) : List UInt8 :=
  let n := c.toNat
  if n < 0x80 then [UInt8.ofNat n]
  else if n < 0x800 then
    [UInt8.ofNat (0xC0 + n / 0x40), UInt8.ofNat (0x80 + n % 0x40)]
  else if n < 0x10000 then
    [UInt8.ofNat (0xE0 + n / 0x1000), UInt8.ofNat (0x80 + n / 0x40 % 0x40),
     UInt8.ofNat (0x80 + n % 0x40)]
  else
    [UInt8.ofNat (0xF0 + n / 0x40000), UInt8.ofNat (0x80 + n / 0x1000 % 0x40),
     UInt8.ofNat (0x80 + n / 0x40 % 0x40), UInt8.ofNat (0x80 + n % 0x40)]

/-- `s.encode("utf8")` as a byte list. -/
def strBytes (s : String) : List UInt8 :=
  (s.toList.map charUTF8).flatten

/-- A UTF-8 continuation byte (`0x80..0xBF`). -/
def isCont (b : UInt8) : Bool :=
  0x80 ≤ b.toNat && b.toNat < 0xC0

/-- Strict UTF-8 decoding, as Python `bytes.decode("utf8")` with the default
strict error handler: `none` models a raised `UnicodeDecodeError`. Rejects
invalid lead bytes, truncated or invalid sequences, overlong encodings,
surrogate code points and code points above `U+10FFFF`. -/
def utf8DecodeStrict : List UInt8 → Option (List Char)
  | [] => some []
  | b :: rest =>
    let n := b.toNat
    if n < 0x80 then
      (utf8DecodeStrict rest).map (Char.ofNat n :: ·)
    else if n < 0xC2 then none
    else if n < 0xE0 then
      match rest with
      | b2 :: r2 =>
        if isCont b2 then
          (utf8DecodeStrict r2).map
            (Char.ofNat ((n - 0xC0) * 0x40 + (b2.toNat - 0x80)) :: ·)
        else none
      | [] => none
    else if n < 0xF0 then
      match rest with
      | b2 :: b3 :: r2 =>
        let lo2 := if n = 0xE0 then 0xA0 else 0x80
        let hi2 := if n = 0xED then 0xA0 else 0xC0
        if (lo2 ≤ b2.toNat && b2.toNat < hi2) && isCont b3 then
          (utf8DecodeStrict r2).map
            (Char.ofNat ((n - 0xE0) * 0x1000 + (b2.toNat - 0x80) * 0x40 +
              (b3.toNat - 0x80)) :: ·)
        else none
      | _ => none
    else if n < 0xF5 then
      match rest with
      | b2 :: b3 :: b4 :: r2 =>
        let lo2 := if n = 0xF0 then 0x90 else 0x80
        let hi2 := if n = 0xF4 then 0x90 else 0xC0
        if (lo2 ≤ b2.toNat && b2.toNat < hi2) && isCont b3 && isCont b4 then
          (utf8DecodeStrict r2).map
            (Char.ofNat ((n - 0xF0) * 0x40000 + (b2.toNat - 0x80) * 0x1000 +
              (b3.toNat - 0x80) * 0x40 + (b4.toNat - 0x80)) :: ·)
        else none
      | _ => none
    else none

/-- Lower bound for the second byte of a 3- or 4-byte UTF-8 sequence with lead
byte value `n`, tightened for `E0` and `F0` to exclude overlong encodings. -/
def cont2Lo (n : Nat) : Nat :=
  if n = 0xE0 then 0xA0 else if n = 0xF0 then 0x90 else 0x80

/-- Exclusive upper bound for the second byte, tightened for `ED` to exclude
surrogates and for `F4` to cap at `U+10FFFF`. -/
def cont2Hi (n : Nat) : Nat :=
  if n = 0xED then 0xA0 else if n = 0xF4 then 0x90 else 0xC0

/-- Fuelled pass behind `utf8DecodeReplace`; the fuel is structural and every
step consumes at least one byte, so fuel equal to the byte count never runs
out. On an ill-formed sequence it consumes the maximal valid subpart — the
lead byte plus however many continuation bytes are valid in their position —
emits one `U+FFFD`, and resumes at the first offending byte: CPython's
"substitution of maximal subparts" strategy for `errors='replace'`
(`b"\xe2\x82A"` decodes to `�` then `A`, while `b"\xe0\x80"` decodes to
two `U+FFFD` because `0x80` is not a valid second byte after `0xE0`). -/
def utf8DecodeReplaceF : Nat → List UInt8 → List Char
  | 0, _ => []
  | _ + 1, [] => []
  | fuel + 1, b :: rest =>
    let n := b.toNat
    if n < 0x80 then Char.ofNat n :: utf8DecodeReplaceF fuel rest
    else if n < 0xC2 then '�' :: utf8DecodeReplaceF fuel rest
    else if n < 0xE0 then
      match rest with
      | b2 :: r2 =>
        if isCont b2 then
          Char.ofNat ((n - 0xC0) * 0x40 + (b2.toNat - 0x80)) ::
            utf8DecodeReplaceF fuel r2
        else '�' :: utf8DecodeReplaceF fuel (b2 :: r2)
      | [] => ['�']
    else if n < 0xF0 then
      match rest with
      | b2 :: r2 =>
        if cont2Lo n ≤ b2.toNat && b2.toNat < cont2Hi n then
          match r2 with
          | b3 :: r3 =>
            if isCont b3 then
              Char.ofNat ((n - 0xE0) * 0x1000 + (b2.toNat - 0x80) * 0x40 +
                (b3.toNat - 0x80)) :: utf8DecodeReplaceF fuel r3
            else '�' :: utf8DecodeReplaceF fuel (b3 :: r3)
          | [] => ['�']
        else '�' :: utf8DecodeReplaceF fuel (b2 :: r2)
      | [] => ['�']
    else if n < 0xF5 then
      match rest with
      | b2 :: r2 =>
        if cont2Lo n ≤ b2.toNat && b2.toNat < cont2Hi n then
          match r2 with
          | b3 :: r3 =>
            if isCont b3 then
              match r3 with
              | b4 :: r4 =>
                if isCont b4 then
                  Char.ofNat ((n - 0xF0) * 0x40000 + (b2.toNat - 0x80) * 0x1000 +
                    (b3.toNat - 0x80) * 0x40 + (b4.toNat - 0x80)) ::
                    utf8DecodeReplaceF fuel r4
                else '�' :: utf8DecodeReplaceF fuel (b4 :: r4)
              | [] => ['�']
            else '�' :: utf8DecodeReplaceF fuel (b3 :: r3)
          | [] => ['�']
        else '�' :: utf8DecodeReplaceF fuel (b2 :: r2)
      | [] => ['�']
    else '�' :: utf8DecodeReplaceF fuel rest

/-- UTF-8 decoding with the `errors='replace'` handler used inside
`urllib.parse.unquote`: each maximal ill-formed subpart becomes one `U+FFFD`
and decoding continues. -/
def utf8DecodeReplace (bs : List UInt8) : List Char :=
  utf8DecodeReplaceF bs.length bs

/-! ### Python string helpers used by `_parse_request`

These are implemented by structural recursion over the character list of the
string, so that every concrete evaluation reduces inside the kernel. -/

/-- The characters before the first occurrence of `sep` (the whole list when
`sep` does not occur): `s.split(sep)[0]`. -/
def takeBeforeSep (sep : List Char) : List Char → List Char
  | [] => []
  | c :: rest =>
    if sep.isPrefixOf (c :: rest) then [] else c :: takeBeforeSep sep rest

/-- Whether `sep` occurs as a contiguous subsequence: `s.find(sep) >= 0`. -/
def containsSeq (sep : List Char) : List Char → Bool
  | [] => sep.isEmpty
  | c :: rest => sep.isPrefixOf (c :: rest) || containsSeq sep rest

/-- Python `str.split()` whitespace: exactly the code points with
`Py_UNICODE_ISSPACE` (`str.isspace`), i.e. U+0009–U+000D, U+001C–U+001F,
space, U+0085, U+00A0, U+1680, U+2000–U+200A, U+2028, U+2029, U+202F,
U+205F and U+3000. -/
def pyWhitespace (c : Char) : Bool :=
  (0x09 ≤ c.toNat && c.toNat ≤ 0x0D) ||
  (0x1C ≤ c.toNat && c.toNat ≤ 0x1F) ||
  c.toNat == 0x20 || c.toNat == 0x85 || c.toNat == 0xA0 || c.toNat == 0x1680 ||
  (0x2000 ≤ c.toNat && c.toNat ≤ 0x200A) ||
  c.toNat == 0x2028 || c.toNat == 0x2029 || c.toNat == 0x202F ||
  c.toNat == 0x205F || c.toNat == 0x3000

/-- Accumulator pass behind `pySplit`: `acc` holds the current token reversed. -/
def pySplitAux (acc : List Char) : List Char → List String
  | [] => if acc = [] then [] else [String.mk acc.reverse]
  | c :: rest =>
    if pyWhitespace c then
      (if acc = [] then [] else [String.mk acc.reverse]) ++ pySplitAux [] rest
    else pySplitAux (c :: acc) rest

/-- Python `str.split()` with no arguments: the maximal whitespace-free runs,
with no empty tokens. -/
def pySplit (s : String) : List String :=
  pySplitAux [] s.toList

/-- `raw_request.split("\r\n")[0]`: the request line. -/
def firstLine (raw : String) : String :=
  String.mk (takeBeforeSep ['\r', '\n'] raw.toList)

/-- `s.endswith(c)` for a single-character suffix. -/
def strEndsWith (s : String) (c : Char) : Bool :=
  s.toList.getLast? == some c

/-- `s.startswith(c)` for a single-character prefix. -/
def strStartsWithChar (s : String) (c : Char) : Bool :=
  s.toList.head? == some c

/-- Python `str.upper()` (ASCII; the only inputs are `GET` and `HEAD`). -/
def pyUpper (s : String) : String :=
  String.mk (s.toList.map Char.toUpper)

/-- `os.path.join` for two components (posix): an absolute second component
replaces the first; otherwise insert a `/` unless the first is empty or already
ends with one. -/
def osPathJoin (a b : String) : String :=
  if strStartsWithChar b '/' then b
  else if a = "" ∨ strEndsWith a '/' = true then a ++ b
  else a ++ "/" ++ b

/-- `sep.join(parts)`. -/
def joinSep (sep : String) : List String → String
  | [] => ""
  | [x] => x
  | x :: y :: xs => x ++ sep ++ joinSep sep (y :: xs)

/-- The digits-only core of Python `int()`, folding decimal digits; every
string it is applied to in this development is a decimal numeral. -/
def digitsVal (acc : Nat) : List Char → Option Nat
  | [] => some acc
  | c :: r =>
    if '0' ≤ c ∧ c ≤ '9' then digitsVal (10 * acc + (c.toNat - 48)) r else none

/-- `int(s)` on the reachable inputs (non-empty decimal numerals). -/
def pyIntDec (s : String) : Option Nat :=
  if s = "" then none else digitsVal 0 s.toList

/-! ### `urllib.parse.unquote` -/

/-- Value of a hexadecimal digit character, both cases, as accepted by the
`_hextobyte` table of `urllib.parse`. -/
def hexVal? (c : Char) : Option Nat :=
  if '0' ≤ c ∧ c ≤ '9' then some (c.toNat - '0'.toNat)
  else if 'a' ≤ c ∧ c ≤ 'f' then some (c.toNat - 'a'.toNat + 10)
  else if 'A' ≤ c ∧ c ≤ 'F' then some (c.toNat - 'A'.toNat + 10)
  else none

/-- Fuelled pass behind `percentDecodeBytes`; each step consumes at least one
character. -/
def percentDecodeBytesF : Nat → List Char → List UInt8
  | 0, _ => []
  | _ + 1, [] => []
  | fuel + 1, '%' :: a :: b :: r2 =>
    match hexVal? a, hexVal? b with
    | some ha, some hb =>
      UInt8.ofNat (16 * ha + hb) :: percentDecodeBytesF fuel r2
    | _, _ => charUTF8 '%' ++ percentDecodeBytesF fuel (a :: b :: r2)
  | fuel + 1, '%' :: rest => charUTF8 '%' ++ percentDecodeBytesF fuel rest
  | fuel + 1, c :: rest => charUTF8 c ++ percentDecodeBytesF fuel rest

/-- Percent-decoding to bytes, as `urllib.parse.unquote_to_bytes`: a `%`
followed by two hex digits becomes that byte, an invalid escape keeps the `%`
literally, every other character contributes its UTF-8 bytes. -/
def percentDecodeBytes (cs : List Char) : List UInt8 :=
  percentDecodeBytesF cs.length cs

/-- `urllib.parse.unquote` with its default arguments (UTF-8, replacement on
undecodable escape bytes). -/
def unquote (s : String) : String :=
  String.mk (utf8DecodeReplace (percentDecodeBytes s.toList))

/-! ### `urllib.parse.urlparse(url).path`

The request-line token handed to `urlparse` in `_parse_request` contains no
whitespace characters (it is a token of `str.split()`), so the tab/newline
stripping performed by recent `urlsplit` versions is the identity on every
reachable input and is omitted here. -/

/-- Characters allowed after the first one in a URL scheme. -/
def isSchemeChar (c : Char) : Bool :=
  c.isAlphanum || c == '+' || c == '-' || c == '.'

/-- Strip a leading `scheme:` as `urlsplit` does: a colon at a positive
position whose prefix starts with an ASCII letter and consists of scheme
characters. -/
def removeScheme (url : String) : String :=
  let cs := url.toList
  match cs.findIdx? (· == ':') with
  | none => url
  | some i =>
    if 0 < i ∧ (cs.headD ' ').isAlpha ∧ (cs.take i).all isSchemeChar then
      String.mk (cs.drop (i + 1))
    else url

/-- `urlparse`'s `_splitparams` applied to the path: when the path contains a
`;`, drop everything from the first `;` of its last segment (the first `;` at
or after the last `/`; the first `;` of the whole path when it has no `/`);
when that segment has no `;`, the path is unchanged. So
`urlparse("/a;b").path = "/a"` while `urlparse("/x;y/z").path = "/x;y/z"`. -/
def splitParamsPath (cs : List Char) : List Char :=
  if cs.contains ';' then
    match cs.reverse.findIdx? (· == '/') with
    | none => takeBeforeSep [';'] cs
    | some rj =>
      match (cs.drop (cs.length - 1 - rj)).findIdx? (· == ';') with
      | none => cs
      | some k => cs.take (cs.length - 1 - rj + k)
  else cs

/-- The fragment, query and params splits applied to the post-netloc part of
the URL, in `urlparse`'s order. -/
def pathOfRest (cs : List Char) : String :=
  String.mk (splitParamsPath (takeBeforeSep ['?'] (takeBeforeSep ['#'] cs)))

/-- The `path` attribute of `urllib.parse.urlparse(url)`: strip the scheme;
if the rest starts with `//`, the netloc runs to the next `/`, `?` or `#`,
and a netloc containing `[` without `]` (or vice versa) makes `urlsplit`
raise `ValueError("Invalid IPv6 URL")`, modelled as `none`; then the
fragment, the query and the `;params` of the last segment are dropped.
(The per-address validation of well-bracketed hosts added in CPython 3.11,
`_check_bracketed_host`, is not modelled; no claim depends on a
well-bracketed-host target.) -/
def urlparsePath (url : String) : Option String :=
  let u := removeScheme url
  if ['/', '/'].isPrefixOf u.toList then
    let cs := u.toList.drop 2
    let i := (cs.findIdx? (fun c => c == '/' || c == '?' || c == '#')).getD cs.length
    if ((cs.take i).contains '[' && !((cs.take i).contains ']')) ||
       ((cs.take i).contains ']' && !((cs.take i).contains '[')) then none
    else some (pathOfRest (cs.drop i))
  else some (pathOfRest u.toList)

/-! ### Status codes and class constants of `RequestHandler` -/

def OK : Nat := 200
def FORBIDDEN : Nat := 403
def NOT_FOUND : Nat := 404
def NOT_ALLOWED : Nat := 405

/-- `CODES_MAPPING`: reason phrase per status code; `none` models the
`KeyError` a lookup of an unmapped code would raise. -/
def codesMapping (code : Nat) : Option String :=
  if code = OK then some "OK"
  else if code = FORBIDDEN then some "Forbidden"
  else if code = NOT_FOUND then some "Not Found"
  else if code = NOT_ALLOWED then some "Method Not Allowed"
  else none

def httpProtocol : String := "HTTP/1.0"
def serverName : String := "CustomWebServer"
def baseDelimiter : String := "\r\n"
def headDelimiter : String := "\r\n\r\n"
def indexFile : String := "index.html"
def methods : List String := ["GET", "HEAD"]

/-! ### Environment: filesystem, `os.path.realpath`, `mimetypes.guess_type` -/

/-- The external collaborators consumed by `RequestHandler`, as pure
functions: `realpath` is `os.path.realpath`, `isfile` is `os.path.isfile`,
`guessType` is the first component of `mimetypes.guess_type` (`none` = Python
`None`), `getsize` is `os.path.getsize` with `none` modelling a raised
`os.error`, and `readFile` is the full byte content of a file (`open(path,
"rb").read(n)` is its first `n` bytes). -/
structure Env where
  realpath : String → String
  isfile : String → Bool
  guessType : String → Option String
  getsize : String → Option Nat
  readFile : String → List UInt8

/-! ### Headers -/

/-- `self._headers`: a Python dict with insertion order, as an association
list. -/
abbrev Headers : Type := List (String × String)

/-- Python dict update `self._headers[k] = v` (`RequestHandler._set_headers`):
overwrite in place if the key is present, append otherwise. -/
def setHeader (hs : Headers) (k v : String) : Headers :=
  if hs.any (fun p => p.1 == k) then
    hs.map (fun p => if p.1 == k then (p.1, v) else p)
  else hs ++ [(k, v)]

/-- The headers dict built in `RequestHandler.__init__`; `date` stands for the
`datetime.utcnow().isoformat()` value. -/
def initHeaders (date : String) : Headers :=
  [("Content-Type", "text/html"), ("Content-Length", "0"),
   ("Connection", "close"), ("Server", serverName), ("Date", date)]

/-- Header lookup (first binding of the key). -/
def getHeader (hs : Headers) (k : String) : Option String :=
  hs.lookup k

/-! ### `_parse_request` -/

/-- The outcome triple of `RequestHandler._parse_request`:
`(response_code, method, path)`, with `none` for Python `None`. -/
structure ParseResult where
  code : Nat
  method : Option String
  path : Option String
deriving DecidableEq, Repr

/-- The router built from the path component `upath` of `urlparse`: decode it,
then `if router.endswith("/"): router = os.path.join(router,
self._index_file)`. -/
def routerFromPath (upath : String) : String :=
  if strEndsWith (unquote upath) '/' then osPathJoin (unquote upath) indexFile
  else unquote upath

/-- `path = self._document_root + os.path.realpath(router)` for the path
component `upath`. -/
def resolvedPath (env : Env) (root upath : String) : String :=
  root ++ env.realpath (routerFromPath upath)

/-- The `mimetypes.guess_type` step of `_parse_request`: set `Content-Type`
when the guessed type is truthy. -/
def applyContentType (env : Env) (path : String) (hs : Headers) : Headers :=
  match env.guessType path with
  | some ct => if ct = "" then hs else setHeader hs "Content-Type" ct
  | none => hs

/-- The `os.path.getsize` step of `_parse_request`: on success set
`Content-Length` and return `(OK, method.upper(), path)`; a raised `os.error`
yields `(NOT_ALLOWED, None, None)`. -/
def applySize (env : Env) (path method : String) (hs : Headers) :
    ParseResult × Headers :=
  match env.getsize path with
  | none => (⟨NOT_ALLOWED, none, none⟩, hs)
  | some size =>
    (⟨OK, some (pyUpper method), some path⟩,
     setHeader hs "Content-Length" (toString size))

/-- `RequestHandler._parse_request`, threading the headers dict explicitly.
The request line is split on whitespace; unpacking into three names raises
`ValueError`, which the local `try` catches (`(NOT_ALLOWED, None, None)`),
unless there are exactly three tokens. The `urlparse` call at line 83 sits
outside that `try`; the `ValueError("Invalid IPv6 URL")` it can raise is
caught nowhere and escapes `_parse_request`, modelled as `none`. -/
def parseRequest (env : Env) (root : String) (hs : Headers) (raw : String) :
    Option (ParseResult × Headers) :=
  match pySplit (firstLine raw) with
  | [method, url, _protocol] =>
    if method ∈ methods then
      match urlparsePath url with
      | none => none
      | some upath =>
        if env.isfile (resolvedPath env root upath) then
          some (applySize env (resolvedPath env root upath) method
            (applyContentType env (resolvedPath env root upath) hs))
        else some (⟨NOT_FOUND, some (pyUpper method),
          some (resolvedPath env root upath)⟩, hs)
    else some (⟨NOT_ALLOWED, none, none⟩, hs)
  | _ => some (⟨NOT_ALLOWED, none, none⟩, hs)

/-! ### `_send_response` and `_get_response_body` -/

/-- `int(self._headers["Content-Length"])`; every value ever stored under
`Content-Length` is a decimal numeral (`"0"` initially, `str(size)` later), so
the fallbacks for a missing key or a non-numeral are unreachable. -/
def contentLength (hs : Headers) : Nat :=
  (pyIntDec ((getHeader hs "Content-Length").getD "0")).getD 0

/-- `RequestHandler._get_response_body`: empty for a falsy path, otherwise the
first `Content-Length` bytes of the file. -/
def getResponseBody (env : Env) (hs : Headers) : Option String → List UInt8
  | none => []
  | some p => if p = "" then [] else (env.readFile p).take (contentLength hs)

/-- The response assembled by `_send_response`: the encoded head
(status line + header block + terminator) and the Python `body` variable
(`none` = the `None` it is initialised to). -/
structure Response where
  head : String
  body : Option (List UInt8)
deriving DecidableEq, Repr

/-- The bytes passed to `sendall`: `resp + body if body else resp` — the head
alone when `body` is `None` or empty. -/
def Response.sent (r : Response) : List UInt8 :=
  match r.body with
  | some b => if b = [] then strBytes r.head else strBytes r.head ++ b
  | none => strBytes r.head

/-- `"\r\n".join(f"{k}: {v}" for k, v in self._headers.items())`. -/
def headersLine (hs : Headers) : String :=
  joinSep baseDelimiter (hs.map (fun p => p.1 ++ ": " ++ p.2))

/-- `RequestHandler._send_response`: `none` models the `KeyError` an unmapped
status code would raise in `CODES_MAPPING[response_code]` (unreachable from
`parseRequest` outputs). The body is computed only for a `GET` with status
`OK`. -/
def sendResponse (env : Env) (hs : Headers) (code : Nat)
    (method : Option String) (path : Option String) : Option Response :=
  match codesMapping code with
  | none => none
  | some reason =>
    some
      { head := httpProtocol ++ " " ++ toString code ++ " " ++ reason ++
          baseDelimiter ++ headersLine hs ++ headDelimiter
        body :=
          if method == some "GET" && code == OK then
            some (getResponseBody env hs path)
          else none }

/-! ### `_read_request` and `handle` -/

/-- The loop of `RequestHandler._read_request` over the successive `recv`
results: stop with the buffer on an empty chunk or once the buffer contains
the head delimiter; each chunk is decoded strictly as UTF-8, and `none` models
the uncaught `UnicodeDecodeError` that a malformed chunk raises. -/
def readRequestAux : String → List (List UInt8) → Option String
  | buf, [] => some buf
  | buf, chunk :: rest =>
    if chunk = [] then some buf
    else
      match utf8DecodeStrict chunk with
      | none => none
      | some cs =>
        if containsSeq headDelimiter.toList (buf ++ String.mk cs).toList then
          some (buf ++ String.mk cs)
        else readRequestAux (buf ++ String.mk cs) rest

/-- `RequestHandler._read_request`, from the list of chunks `recv` yields
before the peer closes. -/
def readRequest (chunks : List (List UInt8)) : Option String :=
  readRequestAux "" chunks

/-- The pipeline of `RequestHandler.handle` after a successful read: parse the
request, then build the response from the resulting code/method/path and the
(possibly mutated) headers; `none` when `_parse_request` raises. -/
def processRequest (env : Env) (root date raw : String) :
    Option (ParseResult × Headers × Option Response) :=
  match parseRequest env root (initHeaders date) raw with
  | none => none
  | some pr =>
    some (pr.1, pr.2, sendResponse env pr.2 pr.1.code pr.1.method pr.1.path)

/-- `RequestHandler.handle` for one connection delivering the given `recv`
chunks. The outer `none` models an exception that is not a `socket.error`
escaping the `try` of `handle` (the socket is still closed by the `finally`,
but no response is sent and the exception propagates to the caller): either a
`UnicodeDecodeError` from `_read_request` or the `ValueError` from `urlparse`
in `_parse_request`. -/
def handleConn (env : Env) (root date : String) (chunks : List (List UInt8)) :
    Option (ParseResult × Headers × Option Response) :=
  match readRequest chunks with
  | none => none
  | some raw => processRequest env root date raw

/-! ### Concrete environments for instantiating the theorems -/

/-- A concrete `os.path.realpath` for a symlink-free filesystem: canonical
paths map to themselves; like the real function it never returns the empty
string. -/
def fsRealpath (s : String) : String :=
  if s = "" then "/" else s

/-- Document root `/www` holding a single 11-byte file `index.html` with
content `"hello world"` (scenario 1 of the spec's testable properties). -/
def envHello : Env :=
  { realpath := fsRealpath
    isfile := fun p => p == "/www/index.html"
    guessType := fun _ => some "text/html"
    getsize := fun p => if p == "/www/index.html" then some 11 else none
    readFile := fun p => if p == "/www/index.html" then strBytes "hello world" else [] }

/-- A filesystem with no regular files at all. -/
def env404 : Env :=
  { realpath := fsRealpath
    isfile := fun _ => false
    guessType := fun _ => none
    getsize := fun _ => none
    readFile := fun _ => [] }

/-- A filesystem where every path is a regular file but every `getsize` call
raises `os.error`. -/
def envStatFail : Env :=
  { realpath := fsRealpath
    isfile := fun _ => true
    guessType := fun _ => none
    getsize := fun _ => none
    readFile := fun _ => [] }

/-! ### Case analysis of `_parse_request` -/

/-- Exhaustive description of the five outcomes of `_parse_request`: malformed
line or disallowed method, uncaught `urlparse` `ValueError`, missing file,
stat failure, success. -/
theorem parseRequest_cases (env : Env) (root : String) (hs : Headers)
    (raw : String) :
    ((∀ m u v, pySplit (firstLine raw) = [m, u, v] → m ∉ methods) ∧
      parseRequest env root hs raw = some (⟨NOT_ALLOWED, none, none⟩, hs)) ∨
    (∃ m u v, pySplit (firstLine raw) = [m, u, v] ∧ m ∈ methods ∧
      urlparsePath u = none ∧ parseRequest env root hs raw = none) ∨
    (∃ m u v upath, pySplit (firstLine raw) = [m, u, v] ∧ m ∈ methods ∧
      urlparsePath u = some upath ∧
      env.isfile (resolvedPath env root upath) = false ∧
      parseRequest env root hs raw =
        some (⟨NOT_FOUND, some (pyUpper m),
          some (resolvedPath env root upath)⟩, hs)) ∨
    (∃ m u v upath, pySplit (firstLine raw) = [m, u, v] ∧ m ∈ methods ∧
      urlparsePath u = some upath ∧
      env.isfile (resolvedPath env root upath) = true ∧
      env.getsize (resolvedPath env root upath) = none ∧
      parseRequest env root hs raw =
        some (⟨NOT_ALLOWED, none, none⟩,
          applyContentType env (resolvedPath env root upath) hs)) ∨
    (∃ m u v upath size, pySplit (firstLine raw) = [m, u, v] ∧ m ∈ methods ∧
      urlparsePath u = some upath ∧
      env.isfile (resolvedPath env root upath) = true ∧
      env.getsize (resolvedPath env root upath) = some size ∧
      parseRequest env root hs raw =
        some (⟨OK, some (pyUpper m), some (resolvedPath env root upath)⟩,
          setHeader (applyContentType env (resolvedPath env root upath) hs)
            "Content-Length" (toString size))) := by
  unfold parseRequest
  split
  · next m u v heq =>
    by_cases hm : m ∈ methods
    · rw [if_pos hm]
      cases hu : urlparsePath u with
      | none =>
        right; left
        exact ⟨m, u, v, heq, hm, hu, rfl⟩
      | some upath =>
        dsimp only
        by_cases hf : env.isfile (resolvedPath env root upath) = true
        · rw [if_pos hf]
          unfold applySize
          cases hsize : env.getsize (resolvedPath env root upath) with
          | none =>
            right; right; right; left
            exact ⟨m, u, v, upath, heq, hm, hu, hf, hsize, rfl⟩
          | some size =>
            right; right; right; right
            exact ⟨m, u, v, upath, size, heq, hm, hu, hf, hsize, rfl⟩
        · rw [if_neg hf]
          right; right; left
          exact ⟨m, u, v, upath, heq, hm, hu, by simpa using hf, rfl⟩
    · rw [if_neg hm]
      left
      refine ⟨fun m' u' v' h' => ?_, rfl⟩
      have h3 : m = m' ∧ u = u' ∧ v = v' := by simpa using heq.symm.trans h'
      exact h3.1 ▸ hm
  · next x hne =>
    left
    exact ⟨fun m u v h => absurd h (hne m u v), rfl⟩

/-! ### Helper lemmas -/

theorem mem_methods {m : String} (hm : m ∈ methods) : m = "GET" ∨ m = "HEAD" := by
  simpa [methods] using hm

/-- `os.path.realpath` never returns the empty string, so neither does the
concatenation `document_root + realpath(router)`. -/
theorem resolvedPath_ne_empty (env : Env) (root upath : String)
    (hrp : ∀ s, env.realpath s ≠ "") : resolvedPath env root upath ≠ "" := by
  unfold resolvedPath
  intro h
  have hdata := congrArg String.data h
  rw [String.data_append] at hdata
  have h2 : (env.realpath (routerFromPath upath)).data = [] :=
    (List.append_eq_nil.mp hdata).2
  exact hrp (routerFromPath upath) (by
    cases henv : env.realpath (routerFromPath upath) with
    | mk l =>
      rw [henv] at h2
      simp only at h2
      rw [h2] at henv ⊢)

theorem fsRealpath_ne_empty : ∀ s : String, fsRealpath s ≠ "" := by
  intro s
  unfold fsRealpath
  split
  · exact fun h => by simp at h
  · next h => exact h

/-- The `Content-Length` binding after the size step of `_parse_request`:
whatever the content-type step did, the final lookup returns the written
value. -/
theorem getHeader_CL_set (env : Env) (p date v : String) :
    getHeader (setHeader (applyContentType env p (initHeaders date))
      "Content-Length" v) "Content-Length" = some v := by
  unfold applyContentType
  cases env.guessType p with
  | none => rfl
  | some ct =>
    show getHeader (setHeader
      (if ct = "" then initHeaders date
       else setHeader (initHeaders date) "Content-Type" ct)
      "Content-Length" v) "Content-Length" = some v
    by_cases hc : ct = ""
    · rw [if_pos hc]
      rfl
    · rw [if_neg hc]
      rfl

/-- The index-file step of `_parse_request` written with the join unfolded:
`os.path.join(router, "index.html")` is plain concatenation when the router
ends in the separator. -/
theorem routerFromPath_eq (upath : String) :
    routerFromPath upath =
      if strEndsWith (unquote upath) '/' = true then unquote upath ++ indexFile
      else unquote upath := by
  unfold routerFromPath
  by_cases h : strEndsWith (unquote upath) '/' = true
  · rw [if_pos h, if_pos h]
    unfold osPathJoin
    rw [if_neg (show ¬strStartsWithChar indexFile '/' = true by decide)]
    rw [if_pos (Or.inr h)]
  · rw [if_neg h, if_neg h]

/-- The body `_send_response` attaches: computed only for a `GET` with status
`OK`, `None` otherwise. -/
theorem sendResponse_some_body (env : Env) (hs : Headers) (code : Nat)
    (method : Option String) (path : Option String) (r : Response)
    (hr : sendResponse env hs code method path = some r) :
    r.body = (if method == some "GET" && code == OK
      then some (getResponseBody env hs path) else none) := by
  unfold sendResponse at hr
  cases hmap : codesMapping code with
  | none => rw [hmap] at hr; cases hr
  | some reason =>
    rw [hmap] at hr
    simp only [Option.some.injEq] at hr
    rw [← hr]

/-- `_get_response_body` on a truthy path: the first `Content-Length` bytes of
the file. -/
theorem getResponseBody_some (env : Env) (hs : Headers) (p : String)
    (hp : p ≠ "") :
    getResponseBody env hs (some p) =
      (env.readFile p).take (contentLength hs) := by
  show (if p = "" then [] else (env.readFile p).take (contentLength hs)) =
    (env.readFile p).take (contentLength hs)
  rw [if_neg hp]


/-! ### Claim theorems -/

/-- Claim C8 counterexample: for the request `GET //[ HTTP/1.0\r\n\r\n` the
`urlparse` call in `_parse_request` raises `ValueError("Invalid IPv6 URL")`
outside every handler, so the parse step produces no result status at all —
refuting "for every possible request input, the parse step's result status is
always one of 200, 404, or 405". -/
theorem parse_no_status_on_bracket_target :
    parseRequest env404 "/www" (initHeaders "D")
      "GET //[ HTTP/1.0\r\n\r\n" = none ∧
    ¬ ∃ out, parseRequest env404 "/www" (initHeaders "D")
      "GET //[ HTTP/1.0\r\n\r\n" = some out := by
  refine ⟨rfl, ?_⟩
  rintro ⟨out, hout⟩
  rw [show parseRequest env404 "/www" (initHeaders "D")
    "GET //[ HTTP/1.0\r\n\r\n" = none from rfl] at hout
  exact Option.noConfusion hout

/-- Claim C8 amended: whenever `_parse_request` returns (does not raise), the
status code in its result is one of 200, 404 or 405 — 403 Forbidden is never
emitted. -/
theorem parse_status_never_forbidden (env : Env) (root : String) (hs : Headers)
    (raw : String) (out : ParseResult × Headers)
    (h : parseRequest env root hs raw = some out) :
    (out.1.code = OK ∨ out.1.code = NOT_FOUND ∨ out.1.code = NOT_ALLOWED) ∧
    out.1.code ≠ FORBIDDEN := by
  rcases parseRequest_cases env root hs raw with ⟨-, heq⟩ |
    ⟨m, u, v, -, -, -, heq⟩ | ⟨m, u, v, upath, -, -, -, -, heq⟩ |
    ⟨m, u, v, upath, -, -, -, -, -, heq⟩ |
    ⟨m, u, v, upath, size, -, -, -, -, -, heq⟩ <;> rw [heq] at h
  · obtain rfl := Option.some.inj h
    exact ⟨Or.inr (Or.inr rfl), show NOT_ALLOWED ≠ FORBIDDEN by decide⟩
  · exact Option.noConfusion h
  · obtain rfl := Option.some.inj h
    exact ⟨Or.inr (Or.inl rfl), show NOT_FOUND ≠ FORBIDDEN by decide⟩
  · obtain rfl := Option.some.inj h
    exact ⟨Or.inr (Or.inr rfl), show NOT_ALLOWED ≠ FORBIDDEN by decide⟩
  · obtain rfl := Option.some.inj h
    exact ⟨Or.inl rfl, show OK ≠ FORBIDDEN by decide⟩

/-- Witness for C8 (amended) at the concrete request `GET /x HTTP/1.0\r\n\r\n`
against the empty filesystem. -/
theorem parse_status_never_forbidden_witness :
    ∃ out, parseRequest env404 "/www" (initHeaders "D")
        "GET /x HTTP/1.0\r\n\r\n" = some out ∧
      ((out.1.code = OK ∨ out.1.code = NOT_FOUND ∨ out.1.code = NOT_ALLOWED) ∧
        out.1.code ≠ FORBIDDEN) :=
  ⟨_, rfl, parse_status_never_forbidden env404 "/www" (initHeaders "D")
    "GET /x HTTP/1.0\r\n\r\n" _ rfl⟩

/-- Claim C1: a request whose first line does not split into exactly three
whitespace-separated tokens, or whose method token is not exactly `GET` or
`HEAD`, parses to status 405 with no method and no path, and the response
written has an empty body (the bytes sent are the head alone). -/
theorem malformed_request_405_empty_body (env : Env) (root date raw : String)
    (h : ∀ m u v, pySplit (firstLine raw) = [m, u, v] → m ∉ methods) :
    parseRequest env root (initHeaders date) raw =
      some (⟨NOT_ALLOWED, none, none⟩, initHeaders date) ∧
    ∃ r, processRequest env root date raw =
        some (⟨NOT_ALLOWED, none, none⟩, initHeaders date, some r) ∧
      r.body = none ∧ r.sent = strBytes r.head := by
  have hp : parseRequest env root (initHeaders date) raw =
      some (⟨NOT_ALLOWED, none, none⟩, initHeaders date) := by
    rcases parseRequest_cases env root (initHeaders date) raw with ⟨-, h'⟩ |
      ⟨m, u, v, hsp, hm, -, -⟩ | ⟨m, u, v, upath, hsp, hm, -, -, -⟩ |
      ⟨m, u, v, upath, hsp, hm, -, -, -, -⟩ |
      ⟨m, u, v, upath, size, hsp, hm, -, -, -, -⟩
    · exact h'
    all_goals exact absurd hm (h m u v hsp)
  refine ⟨hp, ?_⟩
  unfold processRequest
  rw [hp]
  exact ⟨_, rfl, rfl, rfl⟩

/-- Witness for C1 at the concrete request `POST / HTTP/1.0\r\n\r\n`
(disallowed method) against the empty filesystem. -/
theorem malformed_request_405_empty_body_witness :
    parseRequest env404 "/www" (initHeaders "D") "POST / HTTP/1.0\r\n\r\n" =
      some (⟨NOT_ALLOWED, none, none⟩, initHeaders "D") ∧
    ∃ r, processRequest env404 "/www" "D" "POST / HTTP/1.0\r\n\r\n" =
        some (⟨NOT_ALLOWED, none, none⟩, initHeaders "D", some r) ∧
      r.body = none ∧ r.sent = strBytes r.head :=
  malformed_request_405_empty_body env404 "/www" "D" "POST / HTTP/1.0\r\n\r\n"
    (by
      intro m u v h
      rw [show pySplit (firstLine "POST / HTTP/1.0\r\n\r\n") =
        ["POST", "/", "HTTP/1.0"] from rfl] at h
      have h3 : "POST" = m ∧ "/" = u ∧ "HTTP/1.0" = v := by simpa using h
      rw [← h3.1]
      decide)

/-- Claim C10: whenever `_parse_request` returns a 404 result, its headers are
exactly the dict built in `__init__` — in particular `Content-Length: 0` and
`Content-Type: text/html` — because the missing-file return happens before any
header is mutated. -/
theorem notfound_headers_untouched (env : Env) (root date raw : String)
    (out : ParseResult × Headers)
    (hout : parseRequest env root (initHeaders date) raw = some out)
    (h : out.1.code = NOT_FOUND) :
    out.2 = initHeaders date ∧
    getHeader (initHeaders date) "Content-Length" = some "0" ∧
    getHeader (initHeaders date) "Content-Type" = some "text/html" := by
  refine ⟨?_, rfl, rfl⟩
  rcases parseRequest_cases env root (initHeaders date) raw with ⟨-, h'⟩ |
    ⟨m, u, v, -, -, -, h'⟩ | ⟨m, u, v, upath, -, -, -, -, h'⟩ |
    ⟨m, u, v, upath, -, -, -, -, -, h'⟩ |
    ⟨m, u, v, upath, size, -, -, -, -, -, h'⟩ <;> rw [h'] at hout
  · obtain rfl := Option.some.inj hout
    exact absurd h (show NOT_ALLOWED ≠ NOT_FOUND by decide)
  · exact Option.noConfusion hout
  · obtain rfl := Option.some.inj hout
    rfl
  · obtain rfl := Option.some.inj hout
    exact absurd h (show NOT_ALLOWED ≠ NOT_FOUND by decide)
  · obtain rfl := Option.some.inj hout
    exact absurd h (show OK ≠ NOT_FOUND by decide)

/-- Witness for C10 at the concrete request `GET /missing.txt HTTP/1.0\r\n\r\n`
against the empty filesystem. -/
theorem notfound_headers_untouched_witness :
    ∃ out, parseRequest env404 "/www" (initHeaders "D")
        "GET /missing.txt HTTP/1.0\r\n\r\n" = some out ∧
      (out.2 = initHeaders "D" ∧
       getHeader (initHeaders "D") "Content-Length" = some "0" ∧
       getHeader (initHeaders "D") "Content-Type" = some "text/html") :=
  ⟨_, rfl, notfound_headers_untouched env404 "/www" "D"
    "GET /missing.txt HTTP/1.0\r\n\r\n" _ rfl rfl⟩

/-- Claim C7 counterexample: on a filesystem with no regular files, the
well-formed request `GET /x HTTP/1.0` parses to a result whose
`filesystem_path` is `Some "/www/x"` with status 404, even though no regular
file exists at that path. -/
theorem path_some_without_file :
    parseRequest env404 "/www" (initHeaders "D") "GET /x HTTP/1.0\r\n\r\n" =
      some (⟨NOT_FOUND, some "GET", some "/www/x"⟩, initHeaders "D") ∧
    env404.isfile "/www/x" = false :=
  ⟨rfl, rfl⟩

/-- Claim C7 amended: in every result `_parse_request` returns,
`filesystem_path` is `Some` exactly when the status is 200 or 404; when the
status is 200 the file at that path exists and is a regular file, while the
404 branch still reports the path of the missing file. -/
theorem path_some_iff_ok_or_notfound (env : Env) (root : String) (hs : Headers)
    (raw : String) (out : ParseResult × Headers)
    (h : parseRequest env root hs raw = some out) :
    (out.1.path.isSome ↔ out.1.code = OK ∨ out.1.code = NOT_FOUND) ∧
    (∀ p, out.1.path = some p → out.1.code = OK → env.isfile p = true) := by
  rcases parseRequest_cases env root hs raw with ⟨-, heq⟩ |
    ⟨m, u, v, -, -, -, heq⟩ | ⟨m, u, v, upath, -, -, -, hf, heq⟩ |
    ⟨m, u, v, upath, -, -, -, -, -, heq⟩ |
    ⟨m, u, v, upath, size, -, -, -, hf, -, heq⟩ <;> rw [heq] at h
  · obtain rfl := Option.some.inj h
    exact ⟨by simp [OK, NOT_FOUND, NOT_ALLOWED], by simp⟩
  · exact Option.noConfusion h
  · obtain rfl := Option.some.inj h
    constructor
    · simp
    · intro p hp hcode
      exact absurd hcode (show NOT_FOUND ≠ OK by decide)
  · obtain rfl := Option.some.inj h
    exact ⟨by simp [OK, NOT_FOUND, NOT_ALLOWED], by simp⟩
  · obtain rfl := Option.some.inj h
    constructor
    · simp
    · intro p hp _
      obtain rfl : resolvedPath env root upath = p := by simpa using hp
      exact hf

/-- Witness for C7 (amended) at the concrete request `GET /x HTTP/1.0\r\n\r\n`
against the empty filesystem. -/
theorem path_some_iff_ok_or_notfound_witness :
    ∃ out, parseRequest env404 "/www" (initHeaders "D")
        "GET /x HTTP/1.0\r\n\r\n" = some out ∧
      ((out.1.path.isSome ↔ out.1.code = OK ∨ out.1.code = NOT_FOUND) ∧
       (∀ p, out.1.path = some p → out.1.code = OK →
         env404.isfile p = true)) :=
  ⟨_, rfl, path_some_iff_ok_or_notfound env404 "/www" (initHeaders "D")
    "GET /x HTTP/1.0\r\n\r\n" _ rfl⟩

/-- Claim C6 (code bug): on a connection that delivers the single byte `0xFF`
(not valid UTF-8), `bytes.decode("utf8")` inside `_read_request` raises
`UnicodeDecodeError`; that exception is not a `socket.error`, so it escapes
`handle` and no response of any kind — in particular not the 405 parse-failure
response the spec describes — is produced. -/
theorem invalid_utf8_no_response (env : Env) (root date : String) :
    handleConn env root date [[0xFF]] = none :=
  rfl

/-- Claim C9: a peer that closes before sending anything makes the read loop
return the empty buffer; the empty string fails the three-token split and the
handler still writes the full, well-formed 405 response with no body. -/
theorem empty_read_yields_405 (env : Env) (root date : String) :
    readRequest [[]] = some "" ∧
    handleConn env root date [[]] =
      some (⟨NOT_ALLOWED, none, none⟩, initHeaders date,
        some { head := httpProtocol ++ " " ++ toString NOT_ALLOWED ++ " " ++
                 "Method Not Allowed" ++ baseDelimiter ++
                 headersLine (initHeaders date) ++ headDelimiter
               body := none }) :=
  ⟨rfl, rfl⟩

/-- Claim C4: whenever the decoded path component ends in the separator, the
resolver appends `index.html` before the filesystem lookup; concretely,
`GET / HTTP/1.0\r\n\r\n` against a root whose `index.html` holds the 11 bytes
`"hello world"` yields status 200, `Content-Length: 11` and exactly those
bytes as body. -/
theorem trailing_slash_appends_index :
    (∀ u upath, urlparsePath u = some upath →
      strEndsWith (unquote upath) '/' = true →
      routerFromPath upath = unquote upath ++ indexFile) ∧
    ∃ hs2 r, processRequest envHello "/www" "D" "GET / HTTP/1.0\r\n\r\n" =
        some (⟨OK, some "GET", some "/www/index.html"⟩, hs2, some r) ∧
      getHeader hs2 "Content-Length" = some "11" ∧
      r.body = some (strBytes "hello world") := by
  refine ⟨?_, _, _, rfl, rfl, rfl⟩
  intro u upath hu h
  rw [routerFromPath_eq, if_pos h]

/-- Witness for the conditional part of C4 at the target `/`. -/
theorem trailing_slash_appends_index_witness :
    urlparsePath "/" = some "/" ∧ strEndsWith (unquote "/") '/' = true ∧
    routerFromPath "/" = unquote "/" ++ indexFile :=
  ⟨rfl, rfl, trailing_slash_appends_index.1 "/" "/" rfl rfl⟩

/-- Claim C3: a response body is present iff the method is GET and the status
is 200; a present body consists of exactly the first Content-Length bytes read
from the resolved file, whose `Content-Length` header value is the stat-ed
file size; for a HEAD request on an existing file (status 200) the body is
absent while `Content-Length` still equals the file's byte size. The
hypothesis `hrp` records that `os.path.realpath` never returns the empty
string. -/
theorem body_iff_get_ok (env : Env) (root date raw : String)
    (hrp : ∀ s, env.realpath s ≠ "")
    (out : ParseResult × Headers × Option Response)
    (hout : processRequest env root date raw = some out)
    (r : Response) (hr : out.2.2 = some r) :
    (r.body.isSome ↔ out.1.method = some "GET" ∧ out.1.code = OK) ∧
    (∀ b, r.body = some b → ∃ p size, out.1.path = some p ∧
      env.getsize p = some size ∧
      getHeader out.2.1 "Content-Length" = some (toString size) ∧
      b = (env.readFile p).take (contentLength out.2.1)) ∧
    (out.1.method = some "HEAD" ∧ out.1.code = OK →
      r.body = none ∧ ∃ p size, out.1.path = some p ∧
        env.getsize p = some size ∧
        getHeader out.2.1 "Content-Length" = some (toString size)) := by
  unfold processRequest at hout
  rcases parseRequest_cases env root (initHeaders date) raw with ⟨-, heq⟩ |
    ⟨m, u, v, -, -, -, heq⟩ | ⟨m, u, v, upath, -, hm, -, -, heq⟩ |
    ⟨m, u, v, upath, -, -, -, -, -, heq⟩ |
    ⟨m, u, v, upath, size, -, hm, -, hf, hsize, heq⟩ <;> rw [heq] at hout
  · obtain rfl := Option.some.inj hout
    dsimp only at hr ⊢
    have hbody := sendResponse_some_body env _ _ _ _ r hr
    have hb : r.body = none := by simpa using hbody
    refine ⟨by simp [hb], by simp [hb], by simp⟩
  · exact Option.noConfusion hout
  · obtain rfl := Option.some.inj hout
    dsimp only at hr ⊢
    have hbody := sendResponse_some_body env _ _ _ _ r hr
    rw [show ((some (pyUpper m) == some "GET" && NOT_FOUND == OK)) = false by
      simp [NOT_FOUND, OK]] at hbody
    rw [if_neg (by simp)] at hbody
    refine ⟨by simp [hbody, NOT_FOUND, OK], by simp [hbody], ?_⟩
    rintro ⟨-, hcode⟩
    exact absurd hcode (show NOT_FOUND ≠ OK by decide)
  · obtain rfl := Option.some.inj hout
    dsimp only at hr ⊢
    have hbody := sendResponse_some_body env _ _ _ _ r hr
    have hb : r.body = none := by simpa using hbody
    refine ⟨by simp [hb], by simp [hb], by simp⟩
  · obtain rfl := Option.some.inj hout
    dsimp only at hr ⊢
    have hbody := sendResponse_some_body env _ _ _ _ r hr
    rcases mem_methods hm with hG | hH
    · subst hG
      have hpne : resolvedPath env root upath ≠ "" :=
        resolvedPath_ne_empty env root upath hrp
      have hb : r.body = some ((env.readFile (resolvedPath env root upath)).take
          (contentLength (setHeader (applyContentType env
            (resolvedPath env root upath) (initHeaders date))
            "Content-Length" (toString size)))) := by
        rw [hbody, if_pos (by rfl), getResponseBody_some env _ _ hpne]
      refine ⟨by simp [hb, OK, show pyUpper "GET" = "GET" from rfl], ?_, ?_⟩
      · intro b hbeq
        rw [hb] at hbeq
        refine ⟨resolvedPath env root upath, size, rfl, hsize,
          getHeader_CL_set env (resolvedPath env root upath) date
            (toString size), ?_⟩
        simpa using hbeq.symm
      · rintro ⟨hmeth, -⟩
        exact absurd hmeth (by decide)
    · subst hH
      have hb : r.body = none := by
        rw [hbody]
        rw [if_neg (by decide)]
      refine ⟨by simp [hb, show pyUpper "HEAD" = "HEAD" from rfl],
        by simp [hb], ?_⟩
      intro _
      exact ⟨hb, resolvedPath env root upath, size, rfl, hsize,
        getHeader_CL_set env (resolvedPath env root upath) date
          (toString size)⟩

/-- Witness for C3 at the concrete request `GET / HTTP/1.0\r\n\r\n` served
from the root holding the 11-byte `index.html`. -/
theorem body_iff_get_ok_witness :
    ∃ out r, processRequest envHello "/www" "D"
        "GET / HTTP/1.0\r\n\r\n" = some out ∧ out.2.2 = some r ∧
      (r.body.isSome ↔ out.1.method = some "GET" ∧ out.1.code = OK) :=
  ⟨_, _, rfl, rfl, (body_iff_get_ok envHello "/www" "D"
    "GET / HTTP/1.0\r\n\r\n" fsRealpath_ne_empty _ rfl _ rfl).1⟩

end Httpd
